import Mathlib

/-!
Verification development for the LinkedIn Zip Solver browser extension.

The program has two components:
* a page agent (`content.js`): extracts a solution list from the page's
  hydration payload via three regex patterns tried in priority order,
  replays it as timed cell clicks, and answers `checkReady` / `solvePuzzle`
  messages;
* a background controller (service worker): decides navigate-vs-solve on
  user trigger, polls agent readiness with a bounded retry budget, and
  delivers the solve command with one inject-then-retry recovery attempt.

Strings are embedded as `List Char`.  The three JavaScript regexes are
embedded as explicit leftmost-match scanning functions with the exact
semantics of the patterns used by the code:
* `/\\"solution\\":\[(.*?)\]/s` - fixed literal prefix, lazy capture up to
  the first `]` (may be empty);
* `/"solution":\[([^\]]+)\]/`   - fixed literal prefix, capture is the
  nonempty run of non-`]` characters up to the first `]`;
* `/solution.*?([^\]]+)\]/`     - literal, then a lazy non-newline gap,
  then a nonempty run of non-`]` characters and a `]`.
`JSON.parse` applied to `'[' + data + ']'` is embedded as a parser of
comma-separated JSON integers (the payloads in scope are integer lists;
a non-number or malformed element makes the parse fail, which the code
observes identically: both JSON syntax errors and the code's own
validation throws are caught by the same handler and wrapped into the
same "Could not parse solution" error).
-/

-- ============================================================
-- Generic string helpers (JavaScript semantics on List Char)
-- ============================================================

/-- Whitespace characters removed by JavaScript `String.prototype.trim`
(the forms that occur in the payloads in scope). -/
def isJsWs (c : Char) : Bool :=
  c = ' ' || c = '\t' || c = '\n' || c = '\r'

/-- JavaScript `trim`: drop whitespace from both ends. -/
def trimList (s : List Char) : List Char :=
  ((s.dropWhile isJsWs).reverse.dropWhile isJsWs).reverse

/-- Skip leading whitespace. -/
def skipWs (s : List Char) : List Char :=
  s.dropWhile isJsWs

/-- The characters strictly before the first occurrence of `c`,
or `none` if `c` does not occur. -/
def upTo (c : Char) : List Char → Option (List Char)
  | [] => none
  | x :: xs => if x = c then some [] else (upTo c xs).map (fun r => x :: r)

/-- JavaScript `String.prototype.includes`: `needle` occurs in `hay`. -/
def containsSub (needle : List Char) : List Char → Bool
  | [] => needle.isEmpty
  | x :: xs => needle.isPrefixOf (x :: xs) || containsSub needle xs

/-- Decimal digits to a natural number. -/
def digitsToNat (ds : List Char) : Nat :=
  ds.foldl (fun a c => a * 10 + (c.toNat - 48)) 0

/-- Parse one JSON natural-number literal (no leading zeros), returning the
value and the unconsumed rest. -/
def parseNatTok : List Char → Option (Nat × List Char)
  | [] => none
  | '0' :: c :: rest => if c.isDigit then none else some (0, c :: rest)
  | '0' :: [] => some (0, [])
  | s =>
    let ds := s.takeWhile Char.isDigit
    if ds.isEmpty then none else some (digitsToNat ds, s.dropWhile Char.isDigit)

/-- Parse one JSON integer literal (optional minus sign). -/
def parseIntTok : List Char → Option (Int × List Char)
  | '-' :: rest => (parseNatTok rest).map (fun p => (-(p.1 : Int), p.2))
  | s => (parseNatTok s).map (fun p => ((p.1 : Int), p.2))

/-- Parse a nonempty comma-separated sequence of JSON integers, entirely
consuming the input.  Fuel-driven recursion; the caller supplies enough
fuel for the whole input. -/
def parseElemsF : Nat → List Char → Option (List Int)
  | 0, _ => none
  | fuel + 1, s =>
    match parseIntTok s with
    | none => none
    | some (n, rest) =>
      match skipWs rest with
      | [] => some [n]
      | ',' :: rest2 =>
        match parseElemsF fuel (skipWs rest2) with
        | none => none
        | some l => some (n :: l)
      | _ => none

/-- Embedding of `JSON.parse('[' + s + ']')` restricted to flat integer
arrays: the payload format the program consumes.  `some` is the parsed
element list; `none` is a JSON syntax error (or a non-number element,
observationally identical in the program: both are wrapped into the same
parse-failure error by the surrounding catch). -/
def parseJsonIntList (s : List Char) : Option (List Int) :=
  match skipWs s with
  | [] => some []
  | c :: rest => parseElemsF ((c :: rest).length + 1) (c :: rest)

-- ============================================================
-- Page agent: solution extraction (content.js, extractSolution)
-- ============================================================

/-- Literal prefix of the primary pattern `/\\"solution\\":\[(.*?)\]/s`. -/
def lit1 : List Char := ("\\\"solution\\\":[").toList

/-- Literal prefix of the second pattern `/"solution":\[([^\]]+)\]/`. -/
def lit2 : List Char := ("\"solution\":[").toList

/-- Leftmost match of a regex of shape `LIT(.*?)\]` (when `allowEmpty`)
or `LIT([^\]]+)\]` (otherwise): scan start positions left to right; where
the literal is a prefix, the capture is the text up to the first following
`]`; a position with no following `]`, or an empty capture when the
capture class requires one character, fails that position and the scan
continues (regex backtracking over start positions). -/
def scanLit (lit : List Char) (allowEmpty : Bool) : List Char → Option (List Char)
  | [] => none
  | x :: xs =>
    if lit.isPrefixOf (x :: xs) then
      match upTo ']' (List.drop lit.length (x :: xs)) with
      | some cap =>
        if allowEmpty || !cap.isEmpty then some cap else scanLit lit allowEmpty xs
      | none => scanLit lit allowEmpty xs
    else scanLit lit allowEmpty xs

/-- The primary, escaped-quote pattern (dot-matches-newline, lazy capture,
capture may be empty). -/
def matchP1 (s : List Char) : Option (List Char) :=
  scanLit lit1 true s

/-- The plain-quote fallback pattern (capture must be nonempty). -/
def matchP2 (s : List Char) : Option (List Char) :=
  scanLit lit2 false s

/-- Tail of the loose pattern after the `solution` literal:
`.*?([^\]]+)\]` with `.` not matching newline.  At each gap offset, the
capture-and-bracket part matches iff the current character is not `]` and
a `]` occurs later; otherwise one gap character (which must not be a
newline) is consumed. -/
def p3tail : List Char → Option (List Char)
  | [] => none
  | c :: rest =>
    if c = ']' then p3tail rest
    else
      match upTo ']' (c :: rest) with
      | some cap => some cap
      | none => if c = '\n' then none else p3tail rest

/-- The loose pattern `/solution.*?([^\]]+)\]/`: leftmost start position
whose text begins with the literal `solution` and whose tail matches. -/
def matchP3 : List Char → Option (List Char)
  | [] => none
  | x :: xs =>
    if ("solution").toList.isPrefixOf (x :: xs) then
      match p3tail (List.drop 8 (x :: xs)) with
      | some cap => some cap
      | none => matchP3 xs
    else matchP3 xs

/-- The pattern chain of `extractSolution` (content.js lines 118-128):
try the primary pattern, then the plain-quote pattern, then the loose
pattern; a match (even with an empty capture) stops the chain. -/
def findSolutionMatch (scriptContent : List Char) : Option (List Char) :=
  match matchP1 scriptContent with
  | some m => some m
  | none =>
    match matchP2 scriptContent with
    | some m => some m
    | none => matchP3 scriptContent

/-- Errors thrown by `extractSolution`, one constructor per throw site;
parse-stage throws are wrapped into `parseError` by the catch handler. -/
inductive ExtractErr
  | dataNotFound
  | dataEmpty
  | solutionNotFound
  | parseError (msg : String)
deriving Repr, DecidableEq

/-- The user-facing message of each extraction error (content.js throw
sites; the parse-stage catch prepends its own prefix). -/
def ExtractErr.message : ExtractErr → String
  | .dataNotFound => ("Game data not found. Make sure the page is fully loaded.")
  | .dataEmpty => ("Game data is empty")
  | .solutionNotFound => ("Solution data not found. LinkedIn game structure may have changed.")
  | .parseError msg => ("Could not parse solution: ") ++ msg

/-- Stand-in for the engine-specific `JSON.parse` syntax-error message. -/
def jsonSyntaxErrorMsg : String := ("Unexpected token in JSON")

/-- The parse stage of `extractSolution` (content.js lines 134-162): the
matched capture is checked against `undefined`/blank, trimmed, parsed as
a bracketed JSON list, and validated to contain only numbers that are not
negative; any throw inside this stage is wrapped into `parseError`. -/
def parsePhase (solutionData : List Char) : Except ExtractErr (List Int) :=
  if solutionData.isEmpty || solutionData = ("undefined").toList
      || (trimList solutionData).isEmpty then
    .error (.parseError ("Solution data is empty or invalid"))
  else
    match parseJsonIntList (trimList solutionData) with
    | none => .error (.parseError jsonSyntaxErrorMsg)
    | some solution =>
      if solution.any (fun cell => cell < 0) then
        .error (.parseError ("Solution contains invalid cell numbers"))
      else
        .ok solution

/-- `extractSolution` (content.js lines 103-163).  The input is the
`rehydrate-data` element's text, `none` when the element is absent.
The pattern chain runs once; an empty capture fails the
`!solutionMatch[1]` check (an empty string is falsy) and raises the
solution-not-found error without trying later patterns. -/
def extractSolution (rehydrateText : Option (List Char)) : Except ExtractErr (List Int) :=
  match rehydrateText with
  | none => .error .dataNotFound
  | some scriptContent =>
    if (trimList scriptContent).isEmpty then .error .dataEmpty
    else
      match findSolutionMatch scriptContent with
      | none => .error .solutionNotFound
      | some cap =>
        if cap.isEmpty then .error .solutionNotFound
        else parsePhase cap

-- ============================================================
-- Page agent: replay (content.js, applySolution / clickCell)
-- ============================================================

/-- The page's cells, as the outcome of `clickCell`'s element lookup and
event dispatch for a given cell number: `true` iff the element with that
`data-cell-idx` exists and dispatching the synthetic events does not
throw. -/
def clickCell (cells : Int → Bool) (cellNumber : Int) : Bool :=
  cells cellNumber

/-- The counts reported when the replay's final scheduled callback fires
(content.js calls them `completedClicks` and `failedClicks`). -/
structure ReplayOutcome where
  succeeded : Nat
  failed : Nat
deriving Repr, DecidableEq

/-- The per-index callbacks of `applySolution`, in firing order (they are
scheduled at strictly increasing delays `index * CLICK_DELAY_MS`, so they
fire in index order).  Each element accounts for one registered timer and
one `clickCell` call updating the counters; the callback whose index
equals `solution.length - 1` registers one further timer whose callback
reports the counts and resolves the promise.  The first component of the
result is the number of timers registered, the second is the reported
outcome - `none` when the resolving callback is never scheduled. -/
def replayLoop (cells : Int → Bool) (lastIndex : Nat) :
    List Int → Nat → Nat → Nat → Nat × Option ReplayOutcome
  | [], _idx, _completed, _failed => (0, none)
  | cell :: rest, idx, completed, failed =>
    let ok := clickCell cells cell
    let completed' := if ok then completed + 1 else completed
    let failed' := if ok then failed else failed + 1
    if idx = lastIndex then
      let (t, _) := replayLoop cells lastIndex rest (idx + 1) completed' failed'
      (t + 2, some ⟨completed', failed'⟩)
    else
      let (t, out) := replayLoop cells lastIndex rest (idx + 1) completed' failed'
      (t + 1, out)

/-- `applySolution` (content.js lines 170-205): schedule one timed click
per solution element; the last element's callback schedules the reporting
callback that resolves the promise.  Returns the number of timers
registered in the timer registry and the reported outcome (`none` when
the promise never resolves - in particular for the empty solution, whose
`forEach` body never runs and hence never calls `resolve`). -/
def applySolution (cells : Int → Bool) (solution : List Int) :
    Nat × Option ReplayOutcome :=
  replayLoop cells (solution.length - 1) solution 0 0 0

-- ============================================================
-- Page agent: solve cycle and message listener (content.js)
-- ============================================================

/-- The page state the agent observes: the text of the `rehydrate-data`
element (`none` when the element is absent) and the click outcome for
each cell number. -/
structure Page where
  rehydrateText : Option (List Char)
  cells : Int → Bool

/-- `isPageReady` (content.js lines 406-409): the data element exists and
its text is longer than 100 characters. -/
def isPageReady (page : Page) : Bool :=
  match page.rehydrateText with
  | none => false
  | some t => decide (100 < t.length)

/-- Settlement state of the promise returned by `solveZipGame`. -/
inductive PromiseOutcome
  | resolved
  | rejected (msg : String)
deriving Repr, DecidableEq

/-- Observable effects of one run of `solveZipGame`. -/
structure SolveRun where
  notifications : List (String × String)
  replayed : Option (List Int)
  promise : PromiseOutcome

/-- `solveZipGame` (content.js lines 72-96): clear timers, extract, reject
empty solutions, replay; the surrounding catch absorbs every error (it
logs and shows a notification and does not rethrow), so the async
function's promise resolves on every path. -/
def solveZipGame (page : Page) : SolveRun :=
  match extractSolution page.rehydrateText with
  | .error e =>
    { notifications := [(("Error: ") ++ e.message, ("error"))]
      replayed := none
      promise := .resolved }
  | .ok solution =>
    if solution.isEmpty then
      { notifications := [(("Error: Solution is empty or invalid"), ("error"))]
        replayed := none
        promise := .resolved }
    else
      { notifications := [(("Solving game..."), ("info"))]
        replayed := some solution
        promise := .resolved }

/-- Messages the listener recognizes. -/
inductive Request
  | checkReady
  | solvePuzzle
  | other
deriving Repr, DecidableEq

/-- Responses sent back through `sendResponse`. -/
inductive ListenerResp
  | ready (r : Bool)
  | solve (success : Bool) (error : Option String)
deriving Repr, DecidableEq

/-- The `chrome.runtime.onMessage` listener (content.js lines 414-438):
`checkReady` is answered synchronously from `isPageReady`; `solvePuzzle`
answers `success: true` when `solveZipGame`'s promise resolves and
`success: false` with the error message when it rejects; other messages
get no response. -/
def onMessage (page : Page) (req : Request) : Option ListenerResp :=
  match req with
  | .checkReady => some (.ready (isPageReady page))
  | .solvePuzzle =>
    match (solveZipGame page).promise with
    | .resolved => some (.solve true none)
    | .rejected m => some (.solve false (some m))
  | .other => none

-- ============================================================
-- Background controller (service worker)
-- ============================================================

/-- `CONFIG.MAX_RETRIES` of the background controller. -/
def MAX_RETRIES : Nat := 10

/-- `CONFIG.LINKEDIN_ZIP_URL`. -/
def LINKEDIN_ZIP_URL : String := ("https://www.linkedin.com/games/zip/")

/-- `CONFIG.LINKEDIN_ZIP_URL_PATTERN`. -/
def LINKEDIN_ZIP_URL_PATTERN : String := ("linkedin.com/games/zip")

/-- `isLinkedInZipPage`: the URL is present and contains the pattern. -/
def isLinkedInZipPage (url : Option String) : Bool :=
  match url with
  | none => false
  | some u => containsSub LINKEDIN_ZIP_URL_PATTERN.toList u.toList

/-- `injectContentScript`: on failure of the platform injection call the
error is rethrown with the `Script injection error` prefix. -/
def injectContentScript (platformInject : Except String Unit) : Except String Unit :=
  match platformInject with
  | .ok _ => .ok ()
  | .error m => .error (("Script injection error: ") ++ m)

/-- `sendMessageWithInjection` (background lines 90-115), instrumented
with the number of injection attempts and send attempts it performs.
`send k` is the outcome of the k-th send attempt (a timeout or delivery
failure is an `error`); `platformInject` is the outcome of the injection
call.  The first send is tried; on failure the script is injected and the
send retried exactly once; a failure of the injection or of the retried
send is rethrown to the caller. -/
def sendMessageWithInjection {α : Type} (send : Nat → Except String α)
    (platformInject : Except String Unit) : Except String α × Nat × Nat :=
  match send 0 with
  | .ok r => (.ok r, 0, 1)
  | .error _ =>
    match injectContentScript platformInject with
    | .error ie => (.error ie, 1, 1)
    | .ok _ =>
      match send 1 with
      | .ok r => (.ok r, 1, 2)
      | .error e2 => (.error e2, 1, 2)

/-- Outcome of one readiness query sent to the tab: the agent answered
with a `ready` flag, or the send failed (no agent in the tab). -/
inductive ReadyAnswer
  | answer (ready : Bool)
  | unreachable
deriving Repr, DecidableEq

/-- Trace of the readiness-polling phase of `solvePuzzleInTab`. -/
structure PollResult where
  checks : Nat
  retries : Nat
  injections : Nat
  dispatched : Bool
deriving Repr, DecidableEq

/-- The polling recursion of `solvePuzzleInTab` (background lines
183-221): each invocation queries readiness (`readyAt k` for the k-th
query; an unreachable agent is injected and counts as not ready), and
either schedules a retry with a decremented budget (when not ready and
budget remains) or falls through to dispatching the solve command -
also when the budget is exhausted while still not ready (best effort). -/
def solveLoop (readyAt : Nat → ReadyAnswer) (k : Nat) : Nat → PollResult
  | 0 =>
    let inj := match readyAt k with
      | .unreachable => 1
      | .answer _ => 0
    ⟨1, 0, inj, true⟩
  | r + 1 =>
    match readyAt k with
    | .answer true => ⟨1, 0, 0, true⟩
    | .answer false =>
      let rest := solveLoop readyAt (k + 1) r
      ⟨rest.checks + 1, rest.retries + 1, rest.injections, rest.dispatched⟩
    | .unreachable =>
      let rest := solveLoop readyAt (k + 1) r
      ⟨rest.checks + 1, rest.retries + 1, rest.injections + 1, rest.dispatched⟩

/-- `solvePuzzleInTab` entered with the default budget `MAX_RETRIES`. -/
def solvePuzzleInTab (readyAt : Nat → ReadyAnswer) : PollResult :=
  solveLoop readyAt 0 MAX_RETRIES

-- ============================================================
-- Background controller: pending-navigation state
-- ============================================================

/-- A browser tab as the controller sees it. -/
structure Tab where
  id : Nat
  url : Option String

/-- The controller's cross-trigger mutable state: the single
`pendingSolveTabId` slot (`let pendingSolveTabId = null`). -/
structure BgState where
  pendingSolveTabId : Option Nat
deriving Repr, DecidableEq

/-- Effects `handleActionClick` can issue. -/
inductive ClickEffect
  | navigate (tabId : Nat) (url : String)
  | solveInPlace (tabId : Nat)
deriving Repr, DecidableEq

/-- `handleActionClick` (background lines 131-176), on the path where the
badge and navigation calls succeed: an invalid tab (JavaScript `!tab.id`,
i.e. id 0) is ignored; a non-target URL marks this tab in the single
pending slot (overwriting any previous value) and navigates it; a target
URL solves in place without touching the slot. -/
def handleActionClick (st : BgState) (tab : Tab) : BgState × Option ClickEffect :=
  if tab.id = 0 then (st, none)
  else if !isLinkedInZipPage tab.url then
    ({ pendingSolveTabId := some tab.id }, some (.navigate tab.id LINKEDIN_ZIP_URL))
  else
    (st, some (.solveInPlace tab.id))

/-- `handleTabUpdate` (background lines 263-281): only when the updated
tab is the pending one and the load completed does anything happen - the
slot is cleared first, then a solve is scheduled iff the tab's URL is the
target page.  The second component is the tab scheduled for auto-solve,
if any. -/
def handleTabUpdate (st : BgState) (tabId : Nat) (statusComplete : Bool)
    (url : Option String) : BgState × Option Nat :=
  if st.pendingSolveTabId = some tabId && statusComplete then
    if isLinkedInZipPage url then ({ pendingSolveTabId := none }, some tabId)
    else ({ pendingSolveTabId := none }, none)
  else
    (st, none)

-- ============================================================
-- Helper lemmas
-- ============================================================

theorem upTo_append (c : Char) (pre suf : List Char) (h : c ∉ pre) :
    upTo c (pre ++ c :: suf) = some pre := by
  induction pre with
  | nil => simp [upTo]
  | cons x xs ih =>
    have hx : ¬ x = c := fun e => h (by simp [e])
    have hxs : c ∉ xs := fun m => h (by simp [m])
    simp [upTo, hx, ih hxs]

theorem isPrefixOf_append_self (l w : List Char) : l.isPrefixOf (l ++ w) = true :=
  List.isPrefixOf_iff_prefix.mpr ⟨w, rfl⟩

theorem scanLit_append (lit : List Char) (ae : Bool) (u w : List Char)
    (h : ∀ i, i < u.length → lit.isPrefixOf ((u ++ w).drop i) = false) :
    scanLit lit ae (u ++ w) = scanLit lit ae w := by
  induction u with
  | nil => rfl
  | cons x xs ih =>
    have h0 : lit.isPrefixOf (x :: (xs ++ w)) = false := by
      have := h 0 (by simp)
      simpa using this
    have hrest : ∀ i, i < xs.length → lit.isPrefixOf ((xs ++ w).drop i) = false := by
      intro i hi
      have := h (i + 1) (by simp; omega)
      simpa [List.drop_succ_cons] using this
    calc scanLit lit ae ((x :: xs) ++ w) = scanLit lit ae (x :: (xs ++ w)) := by
           rw [List.cons_append]
      _ = scanLit lit ae (xs ++ w) := by rw [scanLit, h0]; simp
      _ = scanLit lit ae w := ih hrest

theorem scanLit_here (lit : List Char) (ae : Bool) (s cap : List Char)
    (hp : lit.isPrefixOf s = true)
    (hcap : upTo ']' (s.drop lit.length) = some cap)
    (hok : ae = true ∨ cap ≠ []) : scanLit lit ae s = some cap := by
  cases s with
  | nil => simp [upTo] at hcap
  | cons x xs =>
    rw [scanLit, hp]
    simp only [if_true]
    rw [hcap]
    rcases hok with h | h
    · simp [h]
    · simp [h, List.isEmpty_eq_false.mpr h]

theorem scanLit_mem (lit : List Char) (ae : Bool) (s cap : List Char) (c : Char)
    (hc : c ∈ lit) (h : scanLit lit ae s = some cap) : c ∈ s := by
  induction s with
  | nil => simp [scanLit] at h
  | cons x xs ih =>
    by_cases hp : lit.isPrefixOf (x :: xs) = true
    · exact (List.isPrefixOf_iff_prefix.mp hp).subset hc
    · rw [scanLit] at h
      rw [Bool.eq_false_iff.mpr hp] at h
      simp only [Bool.false_eq_true, if_false] at h
      exact List.mem_cons_of_mem x (ih h)

theorem matchP3_mem (s cap : List Char) (c : Char) (hc : c ∈ ("solution").toList)
    (h : matchP3 s = some cap) : c ∈ s := by
  induction s with
  | nil => simp [matchP3] at h
  | cons x xs ih =>
    by_cases hp : ("solution").toList.isPrefixOf (x :: xs) = true
    · exact (List.isPrefixOf_iff_prefix.mp hp).subset hc
    · rw [matchP3] at h
      rw [Bool.eq_false_iff.mpr hp] at h
      simp only [Bool.false_eq_true, if_false] at h
      exact List.mem_cons_of_mem x (ih h)

theorem trimList_eq_rdrop (s : List Char) :
    trimList s = List.rdropWhile isJsWs (s.dropWhile isJsWs) := rfl

theorem trimList_ne_nil (s : List Char) (c : Char) (hc : c ∈ s)
    (hw : isJsWs c = false) : trimList s ≠ [] := by
  rw [trimList_eq_rdrop]
  intro h
  rw [List.rdropWhile_eq_nil_iff] at h
  have hsplit := List.takeWhile_append_dropWhile isJsWs s
  rcases List.mem_append.mp (by rw [hsplit]; exact hc) with ht | hd
  · have := List.mem_takeWhile_imp ht
    rw [hw] at this
    exact Bool.false_ne_true this
  · have := h c hd
    rw [hw] at this
    exact Bool.false_ne_true this

theorem skipWs_trimList (s : List Char) : skipWs (trimList s) = trimList s := by
  rcases ht : trimList s with _ | ⟨a, t'⟩
  · rfl
  · have hpre : trimList s <+: (s.dropWhile isJsWs) := by
      rw [trimList_eq_rdrop]
      exact List.rdropWhile_prefix _ _
    rw [ht] at hpre
    obtain ⟨r, hr⟩ := hpre
    have hm : s.dropWhile isJsWs ≠ [] := by
      rw [← hr]; simp
    have hhead : isJsWs ((s.dropWhile isJsWs).head hm) = false :=
      List.head_dropWhile_not isJsWs s hm
    have ha : (s.dropWhile isJsWs).head hm = a := by
      have h1 : (s.dropWhile isJsWs).head? = some a := by
        rw [← hr]; rfl
      have h2 : (s.dropWhile isJsWs).head? = some ((s.dropWhile isJsWs).head hm) :=
        List.head?_eq_head hm
      rw [h1] at h2
      exact (Option.some.injEq _ _ ▸ h2).symm
    rw [ha] at hhead
    simp [skipWs, List.dropWhile_cons, hhead]

theorem parseElemsF_ne_nil (fuel : Nat) (s : List Char) (l : List Int)
    (h : parseElemsF fuel s = some l) : l ≠ [] := by
  cases fuel with
  | zero => simp [parseElemsF] at h
  | succ f =>
    rw [parseElemsF] at h
    split at h
    · exact absurd h (by simp)
    · split at h
      · cases h; simp
      · split at h
        · exact absurd h (by simp)
        · cases h; simp
      · exact absurd h (by simp)

theorem filterLength_add (p : Int → Bool) (l : List Int) :
    (l.filter p).length + (l.filter (fun x => !p x)).length = l.length := by
  induction l with
  | nil => rfl
  | cons x xs ih =>
    by_cases hx : p x = true <;>
      simp [List.filter_cons, hx] <;> omega

theorem replayLoop_spec (cells : Int → Bool) :
    ∀ (sol : List Int) (idx c f : Nat), sol ≠ [] →
      replayLoop cells (idx + sol.length - 1) sol idx c f =
        (sol.length + 1,
         some ⟨c + (sol.filter (fun x => cells x)).length,
               f + (sol.filter (fun x => !cells x)).length⟩) := by
  intro sol
  induction sol with
  | nil => intro idx c f h; exact absurd rfl h
  | cons x rest ih =>
    intro idx c f _
    cases rest with
    | nil =>
      by_cases hx : cells x = true
      · simp [replayLoop, clickCell, List.filter_cons, hx]
      · simp [replayLoop, clickCell, List.filter_cons, hx]
    | cons y t =>
      have hix : ¬ idx = idx + (x :: y :: t).length - 1 := by
        simp only [List.length_cons]; omega
      rw [replayLoop]
      simp only [clickCell]
      rw [if_neg hix]
      have hlast : idx + (x :: y :: t).length - 1 = (idx + 1) + (y :: t).length - 1 := by
        simp only [List.length_cons]; omega
      rw [hlast]
      rw [ih (idx + 1) (if cells x then c + 1 else c) (if cells x then f else f + 1)
        (by simp)]
      by_cases hx : cells x = true
      · simp [List.filter_cons, hx, List.length_cons]
        omega
      · simp [List.filter_cons, hx, List.length_cons]
        omega

theorem applySolution_spec (cells : Int → Bool) (sol : List Int) (h : sol ≠ []) :
    applySolution cells sol =
      (sol.length + 1,
       some ⟨(sol.filter (fun x => cells x)).length,
             (sol.filter (fun x => !cells x)).length⟩) := by
  have := replayLoop_spec cells sol 0 0 0 h
  simpa [applySolution] using this

theorem parseJson_trim_ne_nil (cap : List Char) (h : trimList cap ≠ [])
    (sol : List Int) (hp : parseJsonIntList (trimList cap) = some sol) :
    sol ≠ [] := by
  unfold parseJsonIntList at hp
  rw [skipWs_trimList cap] at hp
  rcases he : trimList cap with _ | ⟨a, b⟩
  · exact absurd he h
  · rw [he] at hp
    exact parseElemsF_ne_nil ((a :: b).length + 1) (a :: b) sol hp

theorem parsePhase_ok (cap : List Char) (sol : List Int)
    (h : parsePhase cap = .ok sol) : sol ≠ [] ∧ ∀ x ∈ sol, 0 ≤ x := by
  unfold parsePhase at h
  split at h
  · exact absurd h (by simp)
  · next hguard =>
    split at h
    · exact absurd h (by simp)
    · next solution hjson =>
      split at h
      · exact absurd h (by simp)
      · next hneg =>
        cases h
        refine ⟨?_, ?_⟩
        · have htrim : trimList cap ≠ [] := by
            intro e
            exact hguard (by simp [e])
          exact parseJson_trim_ne_nil cap htrim _ hjson
        · intro x hx
          by_contra hlt
          push_neg at hlt
          exact hneg (List.any_eq_true.mpr ⟨x, hx, by simpa using hlt⟩)

theorem findMatch_trim_ne_nil (content cap : List Char)
    (h : findSolutionMatch content = some cap) : trimList content ≠ [] := by
  have hs : 's' ∈ content := by
    unfold findSolutionMatch at h
    rcases h1 : matchP1 content with _ | m1
    · rw [h1] at h
      rcases h2 : matchP2 content with _ | m2
      · rw [h2] at h
        exact matchP3_mem content cap 's' (by decide) h
      · exact scanLit_mem lit2 false content m2 's' (by decide) h2
    · exact scanLit_mem lit1 true content m1 's' (by decide) h1
  exact trimList_ne_nil content 's' hs (by decide)

theorem extract_eq_parsePhase (content cap : List Char)
    (hm : findSolutionMatch content = some cap) (hne : cap ≠ []) :
    extractSolution (some content) = parsePhase cap := by
  have ht := findMatch_trim_ne_nil content cap hm
  simp only [extractSolution]
  rw [List.isEmpty_eq_false.mpr ht]
  simp only [Bool.false_eq_true, if_false]
  rw [hm]
  simp only []
  rw [List.isEmpty_eq_false.mpr hne]
  simp

theorem extractSolution_ok (re : Option (List Char)) (sol : List Int)
    (h : extractSolution re = .ok sol) : sol ≠ [] ∧ ∀ x ∈ sol, 0 ≤ x := by
  cases re with
  | none => exact absurd h (by simp [extractSolution])
  | some content =>
    simp only [extractSolution] at h
    split at h
    · exact absurd h (by simp)
    · split at h
      · exact absurd h (by simp)
      · next cap heq =>
        split at h
        · exact absurd h (by simp)
        · exact parsePhase_ok cap sol h

theorem solveZipGame_replayed_ne_nil (page : Page) (sol : List Int)
    (h : (solveZipGame page).replayed = some sol) : sol ≠ [] := by
  unfold solveZipGame at h
  split at h
  · simp at h
  · next sol' heq =>
    by_cases he : sol'.isEmpty = true
    · rw [if_pos he] at h
      simp at h
    · rw [if_neg he] at h
      have : sol' = sol := by simpa using h
      subst this
      exact fun e => he (by simp [e])

-- ============================================================
-- Claim theorems
-- ============================================================

/-- Claim C1: the claim states that when solution extraction fails, the
response to the solvePuzzle message is success false carrying the
extraction error's message, and success true only when the solve cycle
did not fail.  The code violates this: `solveZipGame`'s own catch absorbs
every error (it notifies and does not rethrow), so the listener's
rejection branch is dead and the response is success true on every page -
in particular on a page whose extraction fails with data-not-found. -/
theorem C1_solve_response_always_success :
    extractSolution none = .error .dataNotFound ∧
    (∀ page : Page, onMessage page .solvePuzzle = some (.solve true none)) := by
  refine ⟨rfl, fun page => ?_⟩
  cases h : extractSolution page.rehydrateText with
  | error e => simp [onMessage, solveZipGame, h]
  | ok sol =>
    by_cases hs : sol.isEmpty = true <;> simp [onMessage, solveZipGame, h, hs]

/-- Claim C2, counterexample: replay of the empty solution does not
return the zero outcome - it registers no timer but its promise never
resolves, so no outcome at all is delivered. -/
theorem C2_counterexample_empty_replay_never_resolves :
    applySolution (fun _ => true) [] = (0, none) ∧
    (applySolution (fun _ => true) []).2 ≠ some ⟨0, 0⟩ :=
  ⟨rfl, by decide⟩

/-- Claim C2, amended: replay applied to the empty solution registers no
timer in the timer registry, and its promise never resolves (no outcome
is returned; the resolving callback is only scheduled from the last
element's callback, which never runs for an empty solution). -/
theorem C2_empty_replay_registers_no_timer_and_never_resolves :
    ∀ cells : Int → Bool, applySolution cells [] = (0, none) :=
  fun _ => rfl

/-- Claim C6: polling with the readiness answer always false performs one
readiness check per budget level, scheduling exactly `MAX_RETRIES` = 10
retries, and after exhausting the budget still dispatches the solve
command (best effort) instead of failing the cycle. -/
theorem C6_poll_exhausts_budget_then_dispatches :
    solvePuzzleInTab (fun _ => .answer false) =
      ⟨MAX_RETRIES + 1, MAX_RETRIES, 0, true⟩ := rfl

/-- Claim C10: extraction never returns an empty solution.  A raw text
whose primary escaped-quote pattern matches an empty bracket list yields
an empty capture, which fails the falsy-capture check and raises the
solution-not-found error; every successful extraction returns a nonempty
list; and the solve cycle only ever invokes replay on a nonempty
solution. -/
theorem C10_no_empty_solution :
    (∀ content : List Char, matchP1 content = some [] →
      extractSolution (some content) = .error .solutionNotFound) ∧
    (∀ (re : Option (List Char)) (sol : List Int),
      extractSolution re = .ok sol → sol ≠ []) ∧
    (∀ (page : Page) (sol : List Int),
      (solveZipGame page).replayed = some sol → sol ≠ []) := by
  refine ⟨?_, fun re sol h => (extractSolution_ok re sol h).1,
    solveZipGame_replayed_ne_nil⟩
  intro content hm
  have hfm : findSolutionMatch content = some [] := by
    simp [findSolutionMatch, hm]
  have ht := findMatch_trim_ne_nil content [] hfm
  simp only [extractSolution]
  rw [List.isEmpty_eq_false.mpr ht]
  simp only [Bool.false_eq_true, if_false]
  rw [hfm]
  simp

/-- Claim C10, witness: the escaped empty bracket list fails with the
solution-not-found error, and a nonempty replayed solution on a solvable
page is indeed nonempty. -/
theorem C10_witness :
    extractSolution (some (("\\\"solution\\\":[]").toList)) =
      .error .solutionNotFound ∧
    ([1, 2, 3] : List Int) ≠ [] := by
  constructor
  · exact C10_no_empty_solution.1 (("\\\"solution\\\":[]").toList) (by decide)
  · exact C10_no_empty_solution.2.2
      ⟨some (("\\\"solution\\\":[1,2,3]").toList), fun _ => true⟩ [1, 2, 3]
      (by decide)

/-- Claim C3: the three extraction patterns are tried in fixed priority
order and the first match wins - a primary-pattern match determines the result
regardless of the later patterns, a second-pattern match wins when the
primary fails, and a parse failure of the first matched capture makes the
whole extraction fail with that parse error instead of falling back. -/
theorem C3_first_match_wins_parse_failure_terminal :
    (∀ content cap : List Char, matchP1 content = some cap →
      findSolutionMatch content = some cap) ∧
    (∀ content cap : List Char, matchP1 content = none →
      matchP2 content = some cap → findSolutionMatch content = some cap) ∧
    (∀ (content cap : List Char) (msg : String),
      matchP1 content = some cap → cap ≠ [] →
      parsePhase cap = .error (.parseError msg) →
      extractSolution (some content) = .error (.parseError msg)) := by
  refine ⟨?_, ?_, ?_⟩
  · intro content cap h
    simp [findSolutionMatch, h]
  · intro content cap h1 h2
    simp [findSolutionMatch, h1, h2]
  · intro content cap msg h1 hne hp
    have hfm : findSolutionMatch content = some cap := by
      simp [findSolutionMatch, h1]
    rw [extract_eq_parsePhase content cap hfm hne, hp]

/-- Claim C3, witness: on a text where the primary pattern captures an
unparseable payload while the plain-quote pattern would capture a
parseable one, extraction fails with the parse error - the second pattern
is never consulted. -/
theorem C3_witness :
    extractSolution (some (("\\\"solution\\\":[a]\"solution\":[4]").toList)) =
      .error (.parseError jsonSyntaxErrorMsg) ∧
    matchP2 (("\\\"solution\\\":[a]\"solution\":[4]").toList) =
      some (("4").toList) ∧
    parsePhase (("4").toList) = .ok [4] := by
  refine ⟨?_, by decide, rfl⟩
  exact C3_first_match_wins_parse_failure_terminal.2.2
    (("\\\"solution\\\":[a]\"solution\":[4]").toList) (("a").toList)
    jsonSyntaxErrorMsg (by decide) (by decide) rfl

/-- Claim C4, counterexample: the claim quantifies over any raw text
containing the plain-quote substring with the negative entry, but a text
in which an earlier plain-quote occurrence matches first extracts that
earlier payload successfully instead of failing with a parse error. -/
theorem C4_counterexample_negative_substring_preempted :
    containsSub (("\"solution\":[1,-2,3]").toList)
      (("\"solution\":[5]\"solution\":[1,-2,3]").toList) = true ∧
    extractSolution (some (("\"solution\":[5]\"solution\":[1,-2,3]").toList)) =
      .ok [5] :=
  ⟨by decide, rfl⟩

/-- Claim C4, amended: for any raw text whose pattern phase's first match
captures the negative payload, extraction fails with the parse error for
invalid cell numbers; and in general every element of a returned solution
is a number that is not negative (a single negative entry fails the whole
extraction, no partial solution is returned). -/
theorem C4_negative_entry_fails_extraction :
    (∀ content : List Char,
      findSolutionMatch content = some (("1,-2,3").toList) →
      extractSolution (some content) =
        .error (.parseError ("Solution contains invalid cell numbers"))) ∧
    (∀ (re : Option (List Char)) (sol : List Int),
      extractSolution re = .ok sol → ∀ x ∈ sol, 0 ≤ x) := by
  refine ⟨?_, fun re sol h => (extractSolution_ok re sol h).2⟩
  intro content hm
  rw [extract_eq_parsePhase content _ hm (by decide)]
  rfl

/-- Claim C4, witness: a raw text consisting of exactly the plain-quote
negative payload fails with the parse error, and the payload extracted
from the escaped-quote text has no negative element. -/
theorem C4_witness :
    extractSolution (some (("\"solution\":[1,-2,3]").toList)) =
      .error (.parseError ("Solution contains invalid cell numbers")) ∧
    (∀ x ∈ ([1, 2, 3] : List Int), 0 ≤ x) := by
  constructor
  · exact C4_negative_entry_fails_extraction.1
      (("\"solution\":[1,-2,3]").toList) (by decide)
  · exact C4_negative_entry_fails_extraction.2
      (some (("\\\"solution\\\":[1,2,3]").toList)) [1, 2, 3] rfl

/-- The escaped-quote payload of claim C5. -/
def escPayload123 : List Char := ("\\\"solution\\\":[1,2,3]").toList

/-- Claim C5: for valid raw text containing the escaped-quote payload -
valid meaning the payload occurrence is the one the primary pattern
matches, i.e. no primary-pattern match starts before it - extraction
succeeds and returns the sequence 1, 2, 3. -/
theorem C5_escaped_payload_extracts (u v : List Char)
    (h : ∀ i, i < u.length →
      lit1.isPrefixOf ((u ++ (escPayload123 ++ v)).drop i) = false) :
    extractSolution (some (u ++ (escPayload123 ++ v))) = .ok [1, 2, 3] := by
  have hsplit : escPayload123 ++ v = lit1 ++ ((("1,2,3").toList) ++ (']' :: v)) := by
    have he : escPayload123 = lit1 ++ ((("1,2,3").toList) ++ [']']) := by decide
    rw [he, List.append_assoc, List.append_assoc]
    simp
  have hm1 : matchP1 (u ++ (escPayload123 ++ v)) = some (("1,2,3").toList) := by
    unfold matchP1
    rw [scanLit_append lit1 true u (escPayload123 ++ v) h, hsplit]
    apply scanLit_here
    · exact isPrefixOf_append_self lit1 _
    · rw [List.drop_left]
      exact upTo_append ']' (("1,2,3").toList) v (by decide)
    · exact Or.inl rfl
  have hfm : findSolutionMatch (u ++ (escPayload123 ++ v)) =
      some (("1,2,3").toList) := by
    simp [findSolutionMatch, hm1]
  rw [extract_eq_parsePhase _ _ hfm (by decide)]
  rfl

/-- Claim C5, witness: a concrete raw text embedding the escaped-quote
payload between unrelated prefix and suffix extracts to 1, 2, 3. -/
theorem C5_witness :
    extractSolution
      (some ((("data: ").toList) ++ (escPayload123 ++ ((", more").toList)))) =
      .ok [1, 2, 3] :=
  C5_escaped_payload_extracts (("data: ").toList) ((", more").toList) (by decide)

/-- Claim C7: when the first send of the solve command fails, the
messaging layer performs exactly one injection and at most one retried
send; an injection failure is rethrown with one send attempt made, and a
failure of the retried send is rethrown after exactly two send attempts -
no second injection and no second retry ever occurs. -/
theorem C7_one_injection_one_retry_then_terminal (α : Type)
    (send : Nat → Except String α) (platformInject : Except String Unit)
    (e : String) (h0 : send 0 = .error e) :
    (sendMessageWithInjection send platformInject).2.1 = 1 ∧
    (sendMessageWithInjection send platformInject).2.2 ≤ 2 ∧
    (∀ m, platformInject = .error m →
      sendMessageWithInjection send platformInject =
        (.error (("Script injection error: ") ++ m), 1, 1)) ∧
    (∀ e2, platformInject = .ok () → send 1 = .error e2 →
      sendMessageWithInjection send platformInject = (.error e2, 1, 2)) := by
  rcases hpi : platformInject with m | u
  · have hc : sendMessageWithInjection send (Except.error m) =
        (.error (("Script injection error: ") ++ m), 1, 1) := by
      unfold sendMessageWithInjection injectContentScript
      rw [h0]
    refine ⟨by rw [hc], by rw [hc]; simp, ?_, ?_⟩
    · intro m' hm'
      cases hm'
      exact hc
    · intro e2 hok
      simp at hok
  · cases u
    rcases h1 : send 1 with m1 | r1
    · have hc : sendMessageWithInjection send (Except.ok PUnit.unit) =
          (.error m1, 1, 2) := by
        unfold sendMessageWithInjection injectContentScript
        rw [h0, h1]
      refine ⟨by rw [hc], by rw [hc], ?_, ?_⟩
      · intro m' hm'
        simp at hm'
      · intro e2 _ he2
        cases he2
        exact hc
    · have hc : sendMessageWithInjection send (Except.ok PUnit.unit) =
          (.ok r1, 1, 2) := by
        unfold sendMessageWithInjection injectContentScript
        rw [h0, h1]
      refine ⟨by rw [hc], by rw [hc], ?_, ?_⟩
      · intro m' hm'
        simp at hm'
      · intro e2 _ he2
        simp at he2

/-- Claim C7, witness: with the agent unreachable on both sends and the
injection succeeding, the messaging layer returns the second delivery
error after exactly one injection and two send attempts. -/
theorem C7_witness :
    sendMessageWithInjection
      (fun _ => (.error ("Could not establish connection") : Except String Bool))
      (.ok ()) = (.error ("Could not establish connection"), 1, 2) := by
  have h := C7_one_injection_one_retry_then_terminal Bool
    (fun _ => (.error ("Could not establish connection") : Except String Bool))
    (.ok ()) ("Could not establish connection") rfl
  exact h.2.2.2 ("Could not establish connection") rfl rfl

/-- Claim C8: the pending-navigation state is a single slot - triggering
the action on two different non-target tabs in succession leaves only the
second tab tracked (the second trigger overwrites the slot), and the
first tab's navigation-complete event produces no auto-solve action and
does not change the state. -/
theorem C8_single_pending_slot_overwrite (t1 t2 : Tab) (url : Option String)
    (h1 : t1.id ≠ 0) (h2 : t2.id ≠ 0) (hne : t1.id ≠ t2.id)
    (hu1 : isLinkedInZipPage t1.url = false)
    (hu2 : isLinkedInZipPage t2.url = false) :
    (handleActionClick ⟨none⟩ t1).1.pendingSolveTabId = some t1.id ∧
    (handleActionClick (handleActionClick ⟨none⟩ t1).1 t2).1.pendingSolveTabId =
      some t2.id ∧
    handleTabUpdate (handleActionClick (handleActionClick ⟨none⟩ t1).1 t2).1
        t1.id true url =
      ((handleActionClick (handleActionClick ⟨none⟩ t1).1 t2).1, none) := by
  have e1 : (handleActionClick ⟨none⟩ t1).1 = ⟨some t1.id⟩ := by
    simp [handleActionClick, h1, hu1]
  have e2 : (handleActionClick ⟨some t1.id⟩ t2).1 = ⟨some t2.id⟩ := by
    simp [handleActionClick, h2, hu2]
  refine ⟨by rw [e1], by rw [e1, e2], ?_⟩
  rw [e1, e2]
  have hcond : (some t2.id = some t1.id) = False := by
    simp
    exact fun e => hne e.symm
  simp [handleTabUpdate, hcond]

/-- Claim C8, witness: two concrete non-target tabs in succession - only
tab 2 stays pending and tab 1's completed navigation is ignored. -/
theorem C8_witness :
    (handleActionClick ⟨none⟩ ⟨1, some ("https://example.com/a")⟩).1.pendingSolveTabId =
      some 1 ∧
    (handleActionClick (handleActionClick ⟨none⟩ ⟨1, some ("https://example.com/a")⟩).1
        ⟨2, some ("https://example.com/b")⟩).1.pendingSolveTabId = some 2 ∧
    handleTabUpdate
        (handleActionClick (handleActionClick ⟨none⟩ ⟨1, some ("https://example.com/a")⟩).1
          ⟨2, some ("https://example.com/b")⟩).1 1 true (some LINKEDIN_ZIP_URL) =
      ((handleActionClick (handleActionClick ⟨none⟩ ⟨1, some ("https://example.com/a")⟩).1
          ⟨2, some ("https://example.com/b")⟩).1, none) :=
  C8_single_pending_slot_overwrite
    ⟨1, some ("https://example.com/a")⟩ ⟨2, some ("https://example.com/b")⟩
    (some LINKEDIN_ZIP_URL)
    (by decide) (by decide) (by decide) (by decide) (by decide)

/-- Claim C9: for every solution and position whose target does not
resolve, replay counts that position as exactly one failure, does not
abort (every element is attempted, and the reporting callback still
fires), and the reported succeeded and failed counts sum to the
solution's length, with at least the one failure counted. -/
theorem C9_resolution_failure_counted_replay_continues
    (cells : Int → Bool) (sol : List Int) (k : Nat) (hk : k < sol.length)
    (hfail : cells (sol.get ⟨k, hk⟩) = false) :
    applySolution cells sol =
      (sol.length + 1,
       some ⟨(sol.filter (fun x => cells x)).length,
             (sol.filter (fun x => !cells x)).length⟩) ∧
    (sol.filter (fun x => cells x)).length +
      (sol.filter (fun x => !cells x)).length = sol.length ∧
    1 ≤ (sol.filter (fun x => !cells x)).length := by
  have hne : sol ≠ [] := by
    intro e
    rw [e] at hk
    simp at hk
  refine ⟨applySolution_spec cells sol hne, filterLength_add _ sol, ?_⟩
  have hmem : sol.get ⟨k, hk⟩ ∈ sol.filter (fun x => !cells x) := by
    rw [List.mem_filter]
    exact ⟨List.get_mem sol k hk, by simpa using hfail⟩
  have hpos := List.length_pos.mpr (List.ne_nil_of_mem hmem)
  omega

/-- Claim C9, witness: replaying the solution 0, 1, 2 on a page where
cell 1 is missing reports two successes and one failure after
registering four timers. -/
theorem C9_witness :
    applySolution (fun x => !(x == (1 : Int))) [0, 1, 2] = (4, some ⟨2, 1⟩) := by
  have h := C9_resolution_failure_counted_replay_continues
    (fun x => !(x == (1 : Int))) [0, 1, 2] 1 (by decide) (by decide)
  exact h.1.trans (by decide)
